import Mathlib

/-!
Shallow embedding of the sync coordinator and cache layer of mcp-notify
(src/cache/sync.ts, src/cache/channels.ts, src/cache/users.ts) and of the
mention resolver (src/mentions/resolver.ts).

Timestamps are modelled as `Int` (JavaScript `Date.now()` millisecond
values); database reads that may find no row return `Option`.
-/

namespace McpNotify

/-- `SYNC_TIMEOUT_MS` from src/cache/sync.ts. -/
def SYNC_TIMEOUT_MS : Int := 30000

/-- `POLL_INTERVAL_MS` from src/cache/sync.ts. -/
def POLL_INTERVAL_MS : Int := 500

/-- `CACHE_TTL_MS` from src/cache/sync.ts (24 hours). -/
def CACHE_TTL_MS : Int := 24 * 60 * 60 * 1000

/-- One `sync_meta` row (without its `table_name` key): the pair of
timestamps the coordinator operates on. -/
structure Meta where
  started_at : Int
  completed_at : Int
deriving Repr, DecidableEq

/-- `isTableSynced` from src/cache/sync.ts: the `completed_at` of the row
for the table (`none` when the row is missing, in which case the code
falls back to 0 via `?? 0`) is compared strictly against `now - CACHE_TTL_MS`. -/
def isTableSynced (completed : Option Int) (now : Int) : Bool :=
  decide (completed.getD 0 > now - CACHE_TTL_MS)

/-- The `WHERE` predicate of the CAS claim `UPDATE` in `syncIfNeeded`
(src/cache/sync.ts): `completed_at >= started_at OR started_at + SYNC_TIMEOUT_MS < claimTime`. -/
def claimPred (m : Meta) (claimTime : Int) : Bool :=
  decide (m.completed_at ≥ m.started_at) || decide (m.started_at + SYNC_TIMEOUT_MS < claimTime)

/-- The CAS claim `UPDATE sync_meta SET started_at = ? WHERE ...` applied to
the row for the kind: returns the row afterwards and the number of rows
changed (0 when the row is missing or the predicate fails). -/
def casClaim : Option Meta → Int → Option Meta × Nat
  | none, _ => (none, 0)
  | some m, t => if claimPred m t then (some { m with started_at := t }, 1) else (some m, 0)

/-- The failure-path reset `UPDATE sync_meta SET started_at = completed_at`
in `syncIfNeeded` (src/cache/sync.ts). -/
def resetOnFailure (m : Meta) : Meta :=
  { m with started_at := m.completed_at }

/-- The success-path `UPDATE sync_meta SET completed_at = ?` in
`syncIfNeeded`. -/
def markCompleted (m : Meta) (t : Int) : Meta :=
  { m with completed_at := t }

/-- One iteration of a poll loop observes the result of `lookupFn()` and
the re-read `completed_at` of the metadata row (both may change under the
feet of the poller, so they are inputs of the model). -/
structure PollObs (T : Type) where
  lookup : Option T
  completed : Option Int
deriving Repr, DecidableEq

/-- How a poll loop of `syncIfNeeded` ended: a lookup hit returned from
inside the loop, an early break because the re-read `completed_at` reached
the threshold, or the deadline expiring (the observation list running out). -/
inductive PollExit (T : Type) where
  | hit (v : T)
  | broke
  | deadline
deriving Repr, DecidableEq

/-- The poll loop of `syncIfNeeded`: while the deadline has not passed
(modelled by the observation list being nonempty), re-run the lookup and
return a hit immediately; otherwise break once the re-read `completed_at`
is at least the threshold (`meta.started_at` for a waiter, `claimTime` for
a losing claimant). -/
def runPoll {T : Type} : List (PollObs T) → Int → PollExit T
  | [], _ => .deadline
  | o :: rest, threshold =>
    match o.lookup with
    | some v => .hit v
    | none =>
      match o.completed with
      | some c => if c ≥ threshold then .broke else runPoll rest threshold
      | none => runPoll rest threshold

/-- The environment of one `syncIfNeeded` execution: every value the code
reads from the clock, the database, or its two closures, in program order.
Concurrent processes may write the database between this execution's
reads, which is why the metadata is sampled separately at step 2
(`meta0`) and at the CAS (`metaAtClaim`). -/
structure SyncEnv (T : Type) where
  /-- result of the step-1 `lookupFn()` -/
  cached : Option T
  /-- step-2 read of the metadata row -/
  meta0 : Option Meta
  /-- `Date.now()` taken before step 2 -/
  now : Int
  /-- observations of the step-2 waiter poll loop -/
  pollObs : List (PollObs T)
  /-- `lookupFn()` after the waiter poll loop exits -/
  afterWait : Option T
  /-- `Date.now()` taken immediately before the CAS claim -/
  claimTime : Int
  /-- the metadata row at the moment the CAS executes -/
  metaAtClaim : Option Meta
  /-- observations of the losing-claimant poll loop -/
  loserPollObs : List (PollObs T)
  /-- final `lookupFn()` on the losing-claimant path -/
  loserFinal : Option T
  /-- whether `apiFetchFn()` succeeds -/
  refreshOk : Bool
  /-- error message of a failed `apiFetchFn()` -/
  errMsg : String
  /-- `Date.now()` at the success-path completion mark -/
  completeTime : Int
  /-- final `lookupFn()` on the successful-claim path -/
  winnerFinal : Option T
deriving Repr, DecidableEq

/-- Result of a `syncIfNeeded` execution: a returned value (possibly
absent) or the thrown `SlackMcpError` with code `SYNC_FAILED`. -/
inductive SyncResult (T : Type) where
  | ok (v : Option T)
  | syncFailed (msg : String)
deriving Repr, DecidableEq

/-- Which return point of `syncIfNeeded` ended the execution. -/
inductive SyncPath where
  | cachedHit
  | waiterReturn
  | loser
  | winner
deriving Repr, DecidableEq

/-- Trace of one `syncIfNeeded` execution: its result, how many times
`apiFetchFn` ran, the metadata row as left by this execution's own writes
(meaningful on the claimed path, where the claimant owns the row), whether
the step-2 waiter poll block was entered, whether the CAS claim succeeded,
and which return ended the call. -/
structure SyncTrace (T : Type) where
  result : SyncResult T
  refreshCount : Nat
  metaFinal : Option Meta
  enteredStep2Poll : Bool
  claimed : Bool
  path : SyncPath
deriving Repr, DecidableEq

/-- Steps 3-7 of `syncIfNeeded` (src/cache/sync.ts): the CAS claim, the
losing-claimant poll-and-return, and the winner's refresh with its
success mark / failure reset and final lookup. -/
def claimPhase {T : Type} (tableName : String) (env : SyncEnv T) (entered : Bool) : SyncTrace T :=
  let cas := casClaim env.metaAtClaim env.claimTime
  if cas.2 = 0 then
    match runPoll env.loserPollObs env.claimTime with
    | .hit v => ⟨.ok (some v), 0, cas.1, entered, false, .loser⟩
    | _ => ⟨.ok env.loserFinal, 0, cas.1, entered, false, .loser⟩
  else
    if env.refreshOk then
      ⟨.ok env.winnerFinal, 1, cas.1.map (fun m => markCompleted m env.completeTime),
        entered, true, .winner⟩
    else
      ⟨.syncFailed ("Failed to sync " ++ tableName ++ ": " ++ env.errMsg), 1,
        cas.1.map resetOnFailure, entered, true, .winner⟩

/-- `syncIfNeeded` from src/cache/sync.ts over an explicit environment:
step-1 cache check, step-2 in-progress wait (entered only when
`started_at > completed_at` and `now - started_at < SYNC_TIMEOUT_MS`),
then the claim phase. -/
def syncIfNeeded {T : Type} (tableName : String) (env : SyncEnv T) : SyncTrace T :=
  match env.cached with
  | some v => ⟨.ok (some v), 0, env.meta0, false, false, .cachedHit⟩
  | none =>
    match env.meta0 with
    | some m =>
      if m.started_at > m.completed_at ∧ env.now - m.started_at < SYNC_TIMEOUT_MS then
        match runPoll env.pollObs m.started_at with
        | .hit v => ⟨.ok (some v), 0, env.meta0, true, false, .waiterReturn⟩
        | _ =>
          match env.afterWait with
          | some v => ⟨.ok (some v), 0, env.meta0, true, false, .waiterReturn⟩
          | none => claimPhase tableName env true
      else claimPhase tableName env false
    | none => claimPhase tableName env false

/-- The value a losing claimant returns: its poll hit if one occurred,
otherwise its final lookup. -/
def loserOutcome {T : Type} (env : SyncEnv T) : Option T :=
  match runPoll env.loserPollObs env.claimTime with
  | .hit v => some v
  | _ => env.loserFinal

/-- Serialized execution of a list of CAS claims against the shared
metadata row (the embedded store serializes writers): each claimant's
`UPDATE` runs against the row as left by the previous one. Returns the
list of per-claimant change counts and the final row. -/
def runClaims (m : Option Meta) : List Int → List Nat × Option Meta
  | [] => ([], m)
  | t :: ts =>
    let cas := casClaim m t
    let rest := runClaims cas.1 ts
    (cas.2 :: rest.1, rest.2)

/-! ## Entity caches (src/cache/channels.ts and src/cache/users.ts) -/

/-- A row of the `channels` table. -/
structure ChannelRow where
  id : String
  name : String
  synced_at : Int
deriving Repr, DecidableEq

/-- A row of the `users` table. -/
structure UserRow where
  id : String
  name : String
  synced_at : Int
deriving Repr, DecidableEq

/-- A row of the `user_groups` table. -/
structure GroupRow where
  id : String
  handle : String
  synced_at : Int
deriving Repr, DecidableEq

/-- `lookupChannel` (src/cache/channels.ts):
`SELECT id FROM channels WHERE name = ? AND synced_at > ?` with the bound
parameter `Date.now() - CACHE_TTL_MS`; returns the first matching row's id. -/
def lookupChannel (rows : List ChannelRow) (name : String) (now : Int) : Option String :=
  match rows with
  | [] => none
  | r :: rest =>
    if r.name = name ∧ r.synced_at > now - CACHE_TTL_MS then some r.id
    else lookupChannel rest name now

/-- `lookupChannelById` (the channels variant embedded at
src/cache/users.ts lines 162-229): `SELECT id FROM channels WHERE id = ?
AND synced_at > ?`. -/
def lookupChannelById (rows : List ChannelRow) (id : String) (now : Int) : Option String :=
  match rows with
  | [] => none
  | r :: rest =>
    if r.id = id ∧ r.synced_at > now - CACHE_TTL_MS then some r.id
    else lookupChannelById rest id now

/-- `lookupUser` (src/cache/users.ts):
`SELECT id FROM users WHERE name = ? AND synced_at > ?`. -/
def lookupUser (rows : List UserRow) (name : String) (now : Int) : Option String :=
  match rows with
  | [] => none
  | r :: rest =>
    if r.name = name ∧ r.synced_at > now - CACHE_TTL_MS then some r.id
    else lookupUser rest name now

/-- `lookupUserGroup` (src/cache/users.ts):
`SELECT id FROM user_groups WHERE handle = ? AND synced_at > ?`. -/
def lookupUserGroup (rows : List GroupRow) (handle : String) (now : Int) : Option String :=
  match rows with
  | [] => none
  | r :: rest =>
    if r.handle = handle ∧ r.synced_at > now - CACHE_TTL_MS then some r.id
    else lookupUserGroup rest handle now

namespace Channels

/-- `getChannelId` from src/cache/channels.ts: lookup by name; on miss,
delegate to `syncIfNeeded` only when the table is not known-fresh,
otherwise return absent. `syncResult` stands for whatever the delegated
`syncIfNeeded` call would return; the second component records whether
`syncIfNeeded` was invoked. -/
def getChannelId (rows : List ChannelRow) (completed : Option Int) (name : String)
    (now : Int) (syncResult : Option String) : Option String × Bool :=
  match lookupChannel rows name now with
  | some id => (some id, false)
  | none =>
    if !(isTableSynced completed now) then (syncResult, true)
    else (none, false)

end Channels

namespace ChannelsById

/-- `getChannelId` from the channels variant embedded at
src/cache/users.ts lines 162-229: lookup by name, then by id; only when
both miss, delegate to `syncIfNeeded` (unconditionally — no
`isTableSynced` guard in this variant). -/
def getChannelId (rows : List ChannelRow) (input : String) (now : Int)
    (syncResult : Option String) : Option String × Bool :=
  match lookupChannel rows input now with
  | some id => (some id, false)
  | none =>
    match lookupChannelById rows input now with
    | some id => (some id, false)
    | none => (syncResult, true)

end ChannelsById

/-- `resolveUser` from src/cache/users.ts: lookup by name; on miss,
delegate to `syncIfNeeded` only when the users table is not known-fresh. -/
def resolveUser (rows : List UserRow) (completed : Option Int) (name : String)
    (now : Int) (syncResult : Option String) : Option String × Bool :=
  match lookupUser rows name now with
  | some id => (some id, false)
  | none =>
    if !(isTableSynced completed now) then (syncResult, true)
    else (none, false)

/-- `resolveUserGroup` from src/cache/users.ts: lookup by handle; on miss,
delegate to `syncIfNeeded` only when the user_groups table is not
known-fresh. -/
def resolveUserGroup (rows : List GroupRow) (completed : Option Int) (handle : String)
    (now : Int) (syncResult : Option String) : Option String × Bool :=
  match lookupUserGroup rows handle now with
  | some id => (some id, false)
  | none =>
    if !(isTableSynced completed now) then (syncResult, true)
    else (none, false)

/-! ## Mention resolver (src/mentions/resolver.ts)

`convertMentions` scans the message with the JavaScript regular
expression `(?<!\w)@([\w.-]+\w)` (global), resolves each distinct
candidate (groups first, then users; JavaScript truthiness, so an empty
id string does not count), and replaces every match that resolved.  The
scanner below implements exactly that regex: a match starts at an `@`
not preceded by a word character, captures the longest run of
`[\w.-]` characters that ends in a word character, and requires at
least two captured characters (`+` then `\w`). -/

/-- JavaScript `\w`: ASCII letters, digits, underscore (`Char.isAlpha`
and `Char.isDigit` are the ASCII ranges). -/
def isWordChar (c : Char) : Bool :=
  c.isAlpha || c.isDigit || c = '_'

/-- A character of the regex class `[\w.-]`. -/
def isMentionChar (c : Char) : Bool :=
  isWordChar c || c = '.' || c = '-'

/-- Longest prefix of `[\w.-]` characters (the greedy `[\w.-]+` run). -/
def takeRun : List Char → List Char
  | [] => []
  | c :: cs => if isMentionChar c then c :: takeRun cs else []

/-- Longest prefix of the run that ends in a word character (the
backtracking of `[\w.-]+\w`): drop trailing non-word characters. -/
def trimToWord (l : List Char) : List Char :=
  (l.reverse.dropWhile (fun c => !(isWordChar c))).reverse

/-- Fueled regex scan collecting the captured names in match order.
`prev` is the character before the scan position (for the `(?<!\w)`
lookbehind); the fuel strictly exceeds the list length, so it never runs
out. -/
def scanF : Nat → Option Char → List Char → List String
  | 0, _, _ => []
  | _ + 1, _, [] => []
  | f + 1, prev, c :: cs =>
    if c = '@' && (match prev with | some p => !(isWordChar p) | none => true) then
      let name := trimToWord (takeRun cs)
      if 2 ≤ name.length then
        String.mk name :: scanF f (some (name.getLast?.getD 'x')) (List.drop name.length cs)
      else scanF f (some '@') cs
    else scanF f (some c) cs

/-- All captured names of the global regex over the message. -/
def scanNames (cs : List Char) : List String :=
  scanF (cs.length + 1) none cs

/-- Insertion-ordered deduplication (the JavaScript `Set` of names). -/
def insertUnique (l : List String) (s : String) : List String :=
  if s ∈ l then l else l ++ [s]

/-- The distinct candidate names, in first-occurrence order. -/
def collectNames (cs : List Char) : List String :=
  (scanNames cs).foldl insertUnique []

/-- Fueled replacement pass: `message.replace(regex, cb)` where the
callback substitutes `replacements.get(name) ?? full`. -/
def replaceF (repl : String → Option String) : Nat → Option Char → List Char → List Char
  | 0, _, _ => []
  | _ + 1, _, [] => []
  | f + 1, prev, c :: cs =>
    if c = '@' && (match prev with | some p => !(isWordChar p) | none => true) then
      let name := trimToWord (takeRun cs)
      if 2 ≤ name.length then
        let tail := replaceF repl f (some (name.getLast?.getD 'x')) (List.drop name.length cs)
        match repl (String.mk name) with
        | some r => r.data ++ tail
        | none => '@' :: (name ++ tail)
      else '@' :: replaceF repl f (some '@') cs
    else c :: replaceF repl f (some c) cs

/-- `message.replace(regex, cb)` over the whole message. -/
def runReplace (repl : String → Option String) (cs : List Char) : List Char :=
  replaceF repl (cs.length + 1) none cs

/-- JavaScript truthiness of a nullable string (`if (groupId)`). -/
def truthy : Option String → Bool
  | some s => !(s = "")
  | none => false

/-- The user half of one candidate's resolution:
`resolveUser` then `<@ID>` when truthy. -/
def userReplacement (u : String → Option String) (name : String) : Option String :=
  match u name with
  | some uid => if uid = "" then none else some ("<@" ++ uid ++ ">")
  | none => none

/-- One candidate's resolution in `convertMentions`: `resolveUserGroup`
first (`<!subteam^ID>` when truthy), else the user half, else `none`.
`g` and `u` are the results of the two cache resolvers. -/
def resolveMention (g u : String → Option String) (name : String) : Option String :=
  match g name with
  | some gid => if gid = "" then userReplacement u name else some ("<!subteam^" ++ gid ++ ">")
  | none => userReplacement u name

/-- `convertMentions` from src/mentions/resolver.ts. Returns the rewritten
message and the list of candidate names that were sent to the cache
resolvers (each distinct candidate is resolved exactly once). -/
def convertMentions (g u : String → Option String) (message : String) : String × List String :=
  let cs := message.data
  if !(cs.contains '@') then (message, [])
  else
    let names := collectNames cs
    if names.isEmpty then (message, [])
    else
      let entries := names.map (fun n => (n, resolveMention g u n))
      if entries.all (fun e => e.2 = none) then (message, names)
      else
        let repl : String → Option String := fun n =>
          match entries.find? (fun e => e.1 == n) with
          | some e => e.2
          | none => none
        (String.mk (runReplace repl cs), names)

/-! ## Concrete executions used as witnesses and counterexamples -/

/-- A claimant that wins the CAS on the Idle row `⟨0, 0⟩` at instant 100
and whose refresh fails. -/
def envFail : SyncEnv String :=
  { cached := none, meta0 := some ⟨0, 0⟩, now := 100, pollObs := [], afterWait := none,
    claimTime := 100, metaAtClaim := some ⟨0, 0⟩, loserPollObs := [], loserFinal := none,
    refreshOk := false, errMsg := "network error", completeTime := 0, winnerFinal := none }

/-- A claimant racing `envFail`: it read the row while still Idle, so it
skips the wait, but its CAS executes after the winner's and sees the
claimed row `⟨100, 0⟩`; the winner's refresh fails, so every re-read of
`completed_at` during its poll window yields 0 and every lookup misses. -/
def envLoser : SyncEnv String :=
  { cached := none, meta0 := some ⟨0, 0⟩, now := 100, pollObs := [], afterWait := none,
    claimTime := 100, metaAtClaim := some ⟨100, 0⟩,
    loserPollObs := [⟨none, some 0⟩, ⟨none, some 0⟩], loserFinal := none,
    refreshOk := true, errMsg := "", completeTime := 0, winnerFinal := none }

/-- An execution for a table name that has no row in `sync_meta`: both
metadata reads find nothing, and so does each poll re-read. -/
def envNoRow : SyncEnv String :=
  { cached := none, meta0 := none, now := CACHE_TTL_MS, pollObs := [], afterWait := none,
    claimTime := CACHE_TTL_MS, metaAtClaim := none,
    loserPollObs := [⟨none, none⟩], loserFinal := none,
    refreshOk := true, errMsg := "", completeTime := 0, winnerFinal := none }

/-- Resolver environment of the repository's broadcast-mention test: no
user group resolves. -/
def groupsAbsent : String → Option String := fun _ => none

/-- Resolver environment of the repository's broadcast-mention test: only
`alice` resolves, to `U222`. -/
def usersAliceOnly : String → Option String := fun n => if n = "alice" then some "U222" else none

/-! ## Shared lemmas about the coordinator model -/

/-- When the CAS affects zero rows, the claim phase takes the
losing-claimant branch: no refresh, result is the poll hit or the final
lookup. -/
theorem claimPhase_zero {T : Type} (tn : String) (env : SyncEnv T) (b : Bool)
    (h : (casClaim env.metaAtClaim env.claimTime).2 = 0) :
    claimPhase tn env b =
      ⟨.ok (loserOutcome env), 0, (casClaim env.metaAtClaim env.claimTime).1, b, false, .loser⟩ := by
  unfold claimPhase loserOutcome
  rw [if_pos h]
  cases runPoll env.loserPollObs env.claimTime <;> rfl

/-- The CAS claim against an Idle-or-Stale row succeeds and moves
`started_at` to the claim instant. -/
theorem casClaim_wins (m : Meta) (t : Int) (hp : claimPred m t = true) :
    casClaim (some m) t = (some { m with started_at := t }, 1) := by
  simp only [casClaim, hp, if_true]

/-- When the claimant holds the row and the refresh fails, the claim phase
raises Sync-Failed and applies the failure reset to the row it claimed. -/
theorem claimPhase_failed {T : Type} (tn : String) (env : SyncEnv T) (b : Bool) (m : Meta)
    (hat : env.metaAtClaim = some m) (hp : claimPred m env.claimTime = true)
    (hfail : env.refreshOk = false) :
    claimPhase tn env b =
      ⟨.syncFailed ("Failed to sync " ++ tn ++ ": " ++ env.errMsg), 1,
        some ⟨m.completed_at, m.completed_at⟩, b, true, .winner⟩ := by
  simp only [claimPhase, hat, casClaim_wins m env.claimTime hp, hfail]
  simp [resetOnFailure]

/-- When the claimant holds the row and the refresh succeeds, the claim
phase marks `completed_at` with the completion instant. -/
theorem claimPhase_succeeded {T : Type} (tn : String) (env : SyncEnv T) (b : Bool) (m : Meta)
    (hat : env.metaAtClaim = some m) (hp : claimPred m env.claimTime = true)
    (hok : env.refreshOk = true) :
    claimPhase tn env b =
      ⟨.ok env.winnerFinal, 1, some ⟨env.claimTime, env.completeTime⟩, b, true, .winner⟩ := by
  simp only [claimPhase, hat, casClaim_wins m env.claimTime hp, hok, markCompleted]
  simp

/-- An execution whose step-1 lookup misses and whose step-2 read finds an
Idle row skips the waiter poll block entirely and goes to the claim phase. -/
theorem syncIfNeeded_skip_wait {T : Type} (tn : String) (env : SyncEnv T) (m : Meta)
    (hcache : env.cached = none) (hmeta0 : env.meta0 = some m)
    (hidle : m.started_at ≤ m.completed_at) :
    syncIfNeeded tn env = claimPhase tn env false := by
  unfold syncIfNeeded
  simp only [hcache, hmeta0]
  rw [if_neg]
  intro hcon
  exact absurd hcon.1 (not_lt.mpr hidle)

/-- An execution whose step-2 read finds no metadata row goes straight to
the claim phase. -/
theorem syncIfNeeded_no_row {T : Type} (tn : String) (env : SyncEnv T)
    (hcache : env.cached = none) (hmeta0 : env.meta0 = none) :
    syncIfNeeded tn env = claimPhase tn env false := by
  unfold syncIfNeeded
  simp only [hcache, hmeta0]

/-- `apiFetchFn` runs at most once in any claim phase. -/
theorem claimPhase_refresh_le_one {T : Type} (tn : String) (env : SyncEnv T) (b : Bool) :
    (claimPhase tn env b).refreshCount ≤ 1 := by
  simp only [claimPhase]
  repeat' split
  all_goals simp

/-- `apiFetchFn` runs at most once in every `syncIfNeeded` execution. -/
theorem refreshCount_le_one {T : Type} (tn : String) (env : SyncEnv T) :
    (syncIfNeeded tn env).refreshCount ≤ 1 := by
  unfold syncIfNeeded
  repeat' split
  all_goals first
    | simp
    | apply claimPhase_refresh_le_one

/-- A claim phase either won the CAS or returns a value. -/
theorem claimPhase_claimed_or_ok {T : Type} (tn : String) (env : SyncEnv T) (b : Bool) :
    (claimPhase tn env b).claimed = true ∨
      ∃ v, (claimPhase tn env b).result = SyncResult.ok v := by
  simp only [claimPhase]
  repeat' split
  all_goals first
    | exact Or.inl rfl
    | exact Or.inr ⟨_, rfl⟩

/-- Every `syncIfNeeded` execution either won the CAS claim or returns a
value (it never raises Sync-Failed). -/
theorem sync_claimed_or_ok {T : Type} (tn : String) (env : SyncEnv T) :
    (syncIfNeeded tn env).claimed = true ∨
      ∃ v, (syncIfNeeded tn env).result = SyncResult.ok v := by
  unfold syncIfNeeded
  repeat' split
  all_goals first
    | exact Or.inl rfl
    | exact Or.inr ⟨_, rfl⟩
    | apply claimPhase_claimed_or_ok

/-- An execution that never won the CAS claim returns a value (it never
raises Sync-Failed). -/
theorem unclaimed_returns_ok {T : Type} (tn : String) (env : SyncEnv T)
    (h : (syncIfNeeded tn env).claimed = false) :
    ∃ v, (syncIfNeeded tn env).result = SyncResult.ok v := by
  rcases sync_claimed_or_ok tn env with hc | hv
  · rw [h] at hc
    exact absurd hc Bool.false_ne_true
  · exact hv

/-- Unanimously repeated re-reads of a `completed_at` below the threshold
never break the poll loop early: it runs to its deadline. -/
theorem runPoll_low_never_breaks {T : Type} (k : Nat) (c s : Int) (h : c < s) :
    runPoll (List.replicate k (⟨none, some c⟩ : PollObs T)) s = PollExit.deadline := by
  induction k with
  | zero => rfl
  | succ n ih =>
    rw [List.replicate_succ]
    unfold runPoll
    simp only
    rw [if_neg (not_le.mpr h)]
    exact ih

/-- Every CAS attempt against a freshly claimed row `⟨t, c⟩` with
`c < t` fails, and the row is unchanged. -/
theorem runClaims_after_winner (t c : Int) (h : c < t) :
    ∀ ts : List Int, (∀ x ∈ ts, x = t) →
      runClaims (some ⟨t, c⟩) ts = (List.replicate ts.length 0, some ⟨t, c⟩) := by
  intro ts
  induction ts with
  | nil => intro _; rfl
  | cons x rest ih =>
    intro hall
    have hx : x = t := hall x (List.mem_cons_self x rest)
    subst hx
    have hpred : claimPred ⟨x, c⟩ x = false := by
      unfold claimPred
      simp only [Bool.or_eq_false_iff, decide_eq_false_iff_not]
      constructor
      · exact not_le.mpr h
      · have hst : (0 : Int) < SYNC_TIMEOUT_MS := by decide
        omega
    unfold runClaims casClaim
    simp only [hpred, Bool.false_eq_true, if_false]
    rw [ih (fun y hy => hall y (List.mem_cons_of_mem x hy))]
    simp [List.replicate_succ]

/-- An execution whose CAS affects zero rows never wins the claim and
never runs `apiFetchFn`, whichever path it takes. -/
theorem sync_zero_changes_not_winner {T : Type} (tn : String) (env : SyncEnv T)
    (hz : (casClaim env.metaAtClaim env.claimTime).2 = 0) :
    (syncIfNeeded tn env).claimed = false ∧ (syncIfNeeded tn env).refreshCount = 0 := by
  unfold syncIfNeeded
  repeat' split
  all_goals first
    | exact ⟨rfl, rfl⟩
    | (rw [claimPhase_zero tn env _ hz]; exact ⟨rfl, rfl⟩)

/-- An execution whose CAS affects zero rows and that reached the claim
phase returns its poll hit or its final lookup. -/
theorem sync_zero_changes_loser_result {T : Type} (tn : String) (env : SyncEnv T)
    (hz : (casClaim env.metaAtClaim env.claimTime).2 = 0) :
    (syncIfNeeded tn env).path ≠ SyncPath.loser ∨
      (syncIfNeeded tn env).result = SyncResult.ok (loserOutcome env) := by
  unfold syncIfNeeded
  repeat' split
  all_goals first
    | (left; exact fun hcon => SyncPath.noConfusion hcon)
    | (right; rw [claimPhase_zero tn env _ hz])

/-! ## Claims -/

/-- C5 counterexample: the claim asserts that a lock exactly at the
timeout boundary is reclaimable, but the strict `WHERE` predicate
`started_at + SYNC_TIMEOUT < now` rejects the row whose `started_at` is
exactly `now - SYNC_TIMEOUT` (here `now = 60000`): the CAS claim of such
a row affects zero rows. -/
theorem claim_boundary_not_reclaimable_cx :
    claimPred ⟨60000 - SYNC_TIMEOUT_MS, 0⟩ 60000 = false
    ∧ (60000 - SYNC_TIMEOUT_MS) + SYNC_TIMEOUT_MS = (60000 : Int)
    ∧ casClaim (some ⟨60000 - SYNC_TIMEOUT_MS, 0⟩) 60000 =
        (some ⟨60000 - SYNC_TIMEOUT_MS, 0⟩, 0) := by
  decide

/-- C5 (amended): the staleness test of the CAS claim uses the
instant-of-claim `now` with the strict inequality
`started_at + SYNC_TIMEOUT < now`; consequently a row with
`started_at = now - SYNC_TIMEOUT - 1` and `completed_at = 0` is
claimable, while rows with `started_at = now - SYNC_TIMEOUT + 1` and with
`started_at = now - SYNC_TIMEOUT` (the exact boundary) are not claimable
by a new claimant. -/
theorem claim_staleness_strict (now : Int) (h : SYNC_TIMEOUT_MS < now) :
    claimPred ⟨now - SYNC_TIMEOUT_MS - 1, 0⟩ now = true
    ∧ claimPred ⟨now - SYNC_TIMEOUT_MS + 1, 0⟩ now = false
    ∧ claimPred ⟨now - SYNC_TIMEOUT_MS, 0⟩ now = false := by
  unfold claimPred
  simp only [Bool.or_eq_true, Bool.or_eq_false_iff, decide_eq_true_eq,
    decide_eq_false_iff_not]
  omega

/-- C5 witness: the amended boundary behaviour at `now = 60000`. -/
theorem claim_staleness_strict_witness :
    SYNC_TIMEOUT_MS < (60000 : Int)
    ∧ (claimPred ⟨60000 - SYNC_TIMEOUT_MS - 1, 0⟩ 60000 = true
        ∧ claimPred ⟨60000 - SYNC_TIMEOUT_MS + 1, 0⟩ 60000 = false
        ∧ claimPred ⟨60000 - SYNC_TIMEOUT_MS, 0⟩ 60000 = false) :=
  ⟨by decide, claim_staleness_strict 60000 (by decide)⟩

/-- C6: when the channels table is known-fresh (`isTableSynced` is true,
i.e. `completed_at > now - CACHE_TTL_MS`) and the local lookup misses,
`getChannelId` (src/cache/channels.ts) returns absent and does not invoke
`syncIfNeeded`. -/
theorem fresh_table_miss_returns_absent (rows : List ChannelRow) (completed : Option Int)
    (name : String) (now : Int) (syncResult : Option String)
    (hmiss : lookupChannel rows name now = none)
    (hfresh : isTableSynced completed now = true) :
    Channels.getChannelId rows completed name now syncResult = (none, false) := by
  simp only [Channels.getChannelId, hmiss, hfresh]
  simp

/-- C6 witness: an empty fresh table at `now = 1000` with
`completed_at = 1000`. -/
theorem fresh_table_miss_returns_absent_witness :
    lookupChannel [] "general" 1000 = none
    ∧ isTableSynced (some 1000) 1000 = true
    ∧ Channels.getChannelId [] (some 1000) "general" 1000 none = (none, false) :=
  ⟨by decide, by decide,
    fresh_table_miss_returns_absent [] (some 1000) "general" 1000 none (by decide) (by decide)⟩

/-- C7: evaluation of the two `getChannelId` variants at the spec's
scenario (input `C2`, store holding only a fresh record with label
`random` and id `C2`, table known-fresh). The shipped
src/cache/channels.ts variant looks up by name only and returns absent;
the variant at src/cache/users.ts lines 162-229 resolves the id without a
label match and without invoking the coordinator. Users and groups are
looked up by label only: an input equal to a stored id does not match. -/
theorem channel_by_id_divergence :
    Channels.getChannelId [⟨"C2", "random", 1000⟩] (some 1000) "C2" 1000 none = (none, false)
    ∧ ChannelsById.getChannelId [⟨"C2", "random", 1000⟩] "C2" 1000 none = (some "C2", false)
    ∧ lookupUser [⟨"U1", "bob", 1000⟩] "U1" 1000 = none
    ∧ lookupUserGroup [⟨"S1", "devs", 1000⟩] "S1" 1000 = none := by
  decide

/-- C8: record freshness is strict against `now - CACHE_TTL_MS` in all
three entity lookups: a record synced exactly `CACHE_TTL_MS` ago is a
miss, one millisecond newer is a hit. -/
theorem record_ttl_boundary (id name handle : String) (now : Int) :
    lookupChannel [⟨id, name, now - CACHE_TTL_MS⟩] name now = none
    ∧ lookupChannel [⟨id, name, now - CACHE_TTL_MS + 1⟩] name now = some id
    ∧ lookupUser [⟨id, name, now - CACHE_TTL_MS⟩] name now = none
    ∧ lookupUser [⟨id, name, now - CACHE_TTL_MS + 1⟩] name now = some id
    ∧ lookupUserGroup [⟨id, handle, now - CACHE_TTL_MS⟩] handle now = none
    ∧ lookupUserGroup [⟨id, handle, now - CACHE_TTL_MS + 1⟩] handle now = some id := by
  refine ⟨?_, ?_, ?_, ?_, ?_, ?_⟩
  · simp only [lookupChannel]
    rw [if_neg (fun hcon => absurd hcon.2 (lt_irrefl _))]
  · simp only [lookupChannel]
    rw [if_pos ⟨by trivial, by omega⟩]
  · simp only [lookupUser]
    rw [if_neg (fun hcon => absurd hcon.2 (lt_irrefl _))]
  · simp only [lookupUser]
    rw [if_pos ⟨by trivial, by omega⟩]
  · simp only [lookupUserGroup]
    rw [if_neg (fun hcon => absurd hcon.2 (lt_irrefl _))]
  · simp only [lookupUserGroup]
    rw [if_pos ⟨by trivial, by omega⟩]

/-- C2 counterexample: in `envFail` the claim wrote `started_at = 100`;
the claim asserts the failure reset makes `completed_at` equal 100, but
the code's reset `started_at = completed_at` leaves `completed_at` at its
prior value 0, and a waiter that observed `started_at = 100` re-reading
`completed_at = 0` never satisfies its break test. -/
theorem failure_reset_cx :
    Option.map Meta.completed_at (syncIfNeeded "users" envFail).metaFinal = some 0
    ∧ (0 : Int) ≠ 100
    ∧ runPoll ([⟨none, some 0⟩, ⟨none, some 0⟩] : List (PollObs String)) 100
        = PollExit.deadline := by
  decide

/-- C2 (amended): when a claimed refresh fails, the row is reset by
setting `started_at` to the prior `completed_at`, leaving `completed_at`
unchanged (not set to the claim's `started_at`); the row is Idle. A
waiter that observed the claim's `started_at` and polls re-reading that
unchanged `completed_at` (strictly below the claim instant) never breaks
early and runs to its deadline; only a successful refresh, which advances
`completed_at` to at least the claim instant, makes the waiter break. -/
theorem failure_reset_keeps_completed {T : Type} (tn : String) (env : SyncEnv T) (m : Meta)
    (k : Nat) (ct : Int)
    (hcache : env.cached = none) (hmeta0 : env.meta0 = some m)
    (hat : env.metaAtClaim = some m) (hidle : m.started_at ≤ m.completed_at)
    (hfail : env.refreshOk = false)
    (hlt : m.completed_at < env.claimTime) (hct : env.claimTime ≤ ct) :
    (syncIfNeeded tn env).metaFinal = some ⟨m.completed_at, m.completed_at⟩
    ∧ runPoll (List.replicate k (⟨none, some m.completed_at⟩ : PollObs T)) env.claimTime
        = PollExit.deadline
    ∧ runPoll [(⟨none, some ct⟩ : PollObs T)] env.claimTime = PollExit.broke := by
  have hp : claimPred m env.claimTime = true := by
    unfold claimPred
    rw [Bool.or_eq_true]
    left
    exact decide_eq_true hidle
  rw [syncIfNeeded_skip_wait tn env m hcache hmeta0 hidle,
    claimPhase_failed tn env false m hat hp hfail]
  refine ⟨rfl, runPoll_low_never_breaks k m.completed_at env.claimTime hlt, ?_⟩
  unfold runPoll
  simp only
  rw [if_pos hct]

/-- C2 witness: the amended behaviour at `envFail` (prior row `⟨0, 0⟩`,
claim at 100, three poll re-reads of 0, a success write of 100). -/
theorem failure_reset_keeps_completed_witness :
    (syncIfNeeded "users" envFail).metaFinal = some ⟨0, 0⟩
    ∧ runPoll (List.replicate 3 (⟨none, some 0⟩ : PollObs String)) envFail.claimTime
        = PollExit.deadline
    ∧ runPoll [(⟨none, some 100⟩ : PollObs String)] envFail.claimTime = PollExit.broke :=
  failure_reset_keeps_completed "users" envFail ⟨0, 0⟩ 3 100 rfl rfl rfl
    (by decide) rfl (by decide) (by decide)

/-- C3: after a claimed refresh throws, `syncIfNeeded` raises the
Sync-Failed error naming the kind; only the claim holder can raise it (an
unclaimed execution always returns a value); the row is left Idle with
`completed_at >= started_at`; and an immediately following call for the
same kind skips the wait block and succeeds in a fresh CAS claim. -/
theorem sync_failed_resets_and_raises {T : Type} (tn : String) (env : SyncEnv T) (m : Meta)
    (hcache : env.cached = none) (hmeta0 : env.meta0 = some m)
    (hat : env.metaAtClaim = some m) (hidle : m.started_at ≤ m.completed_at)
    (hfail : env.refreshOk = false) :
    (syncIfNeeded tn env).result
        = SyncResult.syncFailed ("Failed to sync " ++ tn ++ ": " ++ env.errMsg)
    ∧ (syncIfNeeded tn env).claimed = true
    ∧ (syncIfNeeded tn env).metaFinal = some ⟨m.completed_at, m.completed_at⟩
    ∧ (∀ r, (syncIfNeeded tn env).metaFinal = some r → r.started_at ≤ r.completed_at)
    ∧ (∀ (tn2 : String) (env2 : SyncEnv T), (syncIfNeeded tn2 env2).claimed = false →
        ∃ v, (syncIfNeeded tn2 env2).result = SyncResult.ok v)
    ∧ (∀ (n2 t2 ct2 : Int) (ok2 : Bool) (e2 : String) (aw2 lf2 w2 : Option T),
        (syncIfNeeded tn (⟨none, some ⟨m.completed_at, m.completed_at⟩, n2, [], aw2, t2,
            some ⟨m.completed_at, m.completed_at⟩, [], lf2, ok2, e2, ct2, w2⟩ : SyncEnv T)).enteredStep2Poll
            = false
        ∧ (syncIfNeeded tn (⟨none, some ⟨m.completed_at, m.completed_at⟩, n2, [], aw2, t2,
            some ⟨m.completed_at, m.completed_at⟩, [], lf2, ok2, e2, ct2, w2⟩ : SyncEnv T)).claimed
            = true) := by
  have hp : claimPred m env.claimTime = true := by
    unfold claimPred
    rw [Bool.or_eq_true]
    left
    exact decide_eq_true hidle
  rw [syncIfNeeded_skip_wait tn env m hcache hmeta0 hidle,
    claimPhase_failed tn env false m hat hp hfail]
  refine ⟨rfl, rfl, rfl, ?_, ?_, ?_⟩
  · intro r hr
    obtain rfl := (Option.some.inj hr).symm
    exact le_refl _
  · exact fun tn2 env2 h2 => unclaimed_returns_ok tn2 env2 h2
  · intro n2 t2 ct2 ok2 e2 aw2 lf2 w2
    have hp2 : claimPred ⟨m.completed_at, m.completed_at⟩ t2 = true := by
      unfold claimPred
      rw [Bool.or_eq_true]
      left
      exact decide_eq_true (le_refl _)
    rw [syncIfNeeded_skip_wait tn _ ⟨m.completed_at, m.completed_at⟩ rfl rfl (le_refl _)]
    cases ok2 with
    | true =>
      rw [claimPhase_succeeded tn _ false ⟨m.completed_at, m.completed_at⟩ rfl hp2 rfl]
      exact ⟨rfl, rfl⟩
    | false =>
      rw [claimPhase_failed tn _ false ⟨m.completed_at, m.completed_at⟩ rfl hp2 rfl]
      exact ⟨rfl, rfl⟩

/-- C3 witness: the failure behaviour at `envFail`. -/
theorem sync_failed_resets_and_raises_witness :
    (syncIfNeeded "users" envFail).result
        = SyncResult.syncFailed ("Failed to sync " ++ "users" ++ ": " ++ envFail.errMsg)
    ∧ (syncIfNeeded "users" envFail).claimed = true
    ∧ (syncIfNeeded "users" envFail).metaFinal = some ⟨0, 0⟩
    ∧ (∀ r, (syncIfNeeded "users" envFail).metaFinal = some r →
        r.started_at ≤ r.completed_at)
    ∧ (∀ (tn2 : String) (env2 : SyncEnv String), (syncIfNeeded tn2 env2).claimed = false →
        ∃ v, (syncIfNeeded tn2 env2).result = SyncResult.ok v)
    ∧ (∀ (n2 t2 ct2 : Int) (ok2 : Bool) (e2 : String) (aw2 lf2 w2 : Option String),
        (syncIfNeeded "users" (⟨none, some ⟨0, 0⟩, n2, [], aw2, t2,
            some ⟨0, 0⟩, [], lf2, ok2, e2, ct2, w2⟩ : SyncEnv String)).enteredStep2Poll = false
        ∧ (syncIfNeeded "users" (⟨none, some ⟨0, 0⟩, n2, [], aw2, t2,
            some ⟨0, 0⟩, [], lf2, ok2, e2, ct2, w2⟩ : SyncEnv String)).claimed = true) :=
  sync_failed_resets_and_raises "users" envFail ⟨0, 0⟩ rfl rfl rfl (by decide) rfl

/-- C4: an execution whose CAS claim affected zero rows never calls the
refresh function and returns a value; when it reached the losing-claimant
path, that value is its poll hit or its final lookup; and in every
execution whatsoever the refresh function runs at most once. -/
theorem refresh_at_most_once {T : Type} (tn : String) (env : SyncEnv T)
    (hz : (casClaim env.metaAtClaim env.claimTime).2 = 0) :
    (syncIfNeeded tn env).refreshCount = 0
    ∧ (syncIfNeeded tn env).claimed = false
    ∧ (∃ v, (syncIfNeeded tn env).result = SyncResult.ok v)
    ∧ ((syncIfNeeded tn env).path = SyncPath.loser →
        (syncIfNeeded tn env).result = SyncResult.ok (loserOutcome env))
    ∧ (∀ (tn2 : String) (env2 : SyncEnv T), (syncIfNeeded tn2 env2).refreshCount ≤ 1) := by
  obtain ⟨hcl, hrc⟩ := sync_zero_changes_not_winner tn env hz
  refine ⟨hrc, hcl, unclaimed_returns_ok tn env hcl, ?_, fun tn2 env2 => refreshCount_le_one tn2 env2⟩
  intro hpath
  rcases sync_zero_changes_loser_result tn env hz with hne | hres
  · exact absurd hpath hne
  · exact hres

/-- C4 witness: the losing claimant `envLoser` (CAS against the claimed
row `⟨100, 0⟩` affects zero rows). -/
theorem refresh_at_most_once_witness :
    (casClaim envLoser.metaAtClaim envLoser.claimTime).2 = 0
    ∧ ((syncIfNeeded "users" envLoser).refreshCount = 0
        ∧ (syncIfNeeded "users" envLoser).claimed = false
        ∧ (∃ v, (syncIfNeeded "users" envLoser).result = SyncResult.ok v)
        ∧ ((syncIfNeeded "users" envLoser).path = SyncPath.loser →
            (syncIfNeeded "users" envLoser).result = SyncResult.ok (loserOutcome envLoser))
        ∧ (∀ (tn2 : String) (env2 : SyncEnv String),
            (syncIfNeeded tn2 env2).refreshCount ≤ 1)) :=
  ⟨by decide, refresh_at_most_once "users" envLoser (by decide)⟩

/-- C10: for a table name with no row in `sync_meta`, `isTableSynced`
returns false (missing row treated as `completed_at = 0`), and a
`syncIfNeeded` execution whose metadata reads find no row enters no
step-2 poll, its CAS matches zero rows, it takes the losing-claimant path,
never calls the refresh function, and returns what its lookups yield. -/
theorem missing_row_never_refreshes {T : Type} (tn : String) (env : SyncEnv T) (now : Int)
    (hnow : CACHE_TTL_MS ≤ now)
    (hcache : env.cached = none) (hmeta0 : env.meta0 = none)
    (hat : env.metaAtClaim = none) :
    isTableSynced none now = false
    ∧ (syncIfNeeded tn env).refreshCount = 0
    ∧ (syncIfNeeded tn env).enteredStep2Poll = false
    ∧ (syncIfNeeded tn env).path = SyncPath.loser
    ∧ (syncIfNeeded tn env).result = SyncResult.ok (loserOutcome env) := by
  have hz : (casClaim env.metaAtClaim env.claimTime).2 = 0 := by
    rw [hat]
    rfl
  rw [syncIfNeeded_no_row tn env hcache hmeta0, claimPhase_zero tn env false hz]
  refine ⟨?_, rfl, rfl, rfl, rfl⟩
  unfold isTableSynced
  simp only [Option.getD_none, decide_eq_false_iff_not]
  omega

/-- C10 witness: `envNoRow` at `now = CACHE_TTL_MS`. -/
theorem missing_row_never_refreshes_witness :
    CACHE_TTL_MS ≤ CACHE_TTL_MS
    ∧ (isTableSynced none CACHE_TTL_MS = false
        ∧ (syncIfNeeded "groups" envNoRow).refreshCount = 0
        ∧ (syncIfNeeded "groups" envNoRow).enteredStep2Poll = false
        ∧ (syncIfNeeded "groups" envNoRow).path = SyncPath.loser
        ∧ (syncIfNeeded "groups" envNoRow).result = SyncResult.ok (loserOutcome envNoRow)) :=
  ⟨le_refl _, missing_row_never_refreshes "groups" envNoRow CACHE_TTL_MS (le_refl _) rfl rfl rfl⟩

/-- C1 counterexample: the claim asserts that when the winner's refresh
fails every other caller eventually succeeds in claiming, but a losing
claimant polls out its window and returns its final lookup (here absent)
without ever claiming: while the winner `envFail` fails, the racing
caller `envLoser` ends with a zero-row CAS, no claim, no refresh, and the
absent result. -/
theorem loser_never_claims_cx :
    (syncIfNeeded "users" envFail).claimed = true
    ∧ (syncIfNeeded "users" envFail).result
        = SyncResult.syncFailed "Failed to sync users: network error"
    ∧ (syncIfNeeded "users" envLoser).claimed = false
    ∧ (syncIfNeeded "users" envLoser).refreshCount = 0
    ∧ (syncIfNeeded "users" envLoser).result = SyncResult.ok none := by
  decide

/-- C1 (amended): when N claimants race on an Idle-or-Stale row
(`completed_at` strictly before the shared claim instant) and the store
serializes their CAS updates, exactly the first one succeeds and every
other affects zero rows; a zero-row claimant never claims, never
refreshes, and returns a value; and after the winner's failure reset the
row is claimable again by any later claim instant. -/
theorem claim_exactly_one {T : Type} (tn : String) (m : Meta) (t t2 : Int) (ts : List Int)
    (env : SyncEnv T)
    (hp : claimPred m t = true) (hc : m.completed_at < t) (hts : ∀ x ∈ ts, x = t)
    (hz : (casClaim env.metaAtClaim env.claimTime).2 = 0) :
    (runClaims (some m) (t :: ts)).1 = 1 :: List.replicate ts.length 0
    ∧ (syncIfNeeded tn env).claimed = false
    ∧ (syncIfNeeded tn env).refreshCount = 0
    ∧ (∃ v, (syncIfNeeded tn env).result = SyncResult.ok v)
    ∧ claimPred (resetOnFailure { m with started_at := t }) t2 = true := by
  obtain ⟨hcl, hrc⟩ := sync_zero_changes_not_winner tn env hz
  refine ⟨?_, hcl, hrc, unclaimed_returns_ok tn env hcl, ?_⟩
  · unfold runClaims
    rw [casClaim_wins m t hp]
    simp only
    rw [runClaims_after_winner t m.completed_at hc ts hts]
  · unfold claimPred resetOnFailure
    rw [Bool.or_eq_true]
    left
    exact decide_eq_true (le_refl _)

/-- C1 witness: three serialized claimants at instant 100 on the Idle row
`⟨0, 0⟩`, with `envLoser` as one of the two losers. -/
theorem claim_exactly_one_witness :
    (runClaims (some ⟨0, 0⟩) [100, 100, 100]).1 = 1 :: List.replicate 2 0
    ∧ (syncIfNeeded "users" envLoser).claimed = false
    ∧ (syncIfNeeded "users" envLoser).refreshCount = 0
    ∧ (∃ v, (syncIfNeeded "users" envLoser).result = SyncResult.ok v)
    ∧ claimPred (resetOnFailure ⟨100, 0⟩) 500 = true :=
  claim_exactly_one "users" ⟨0, 0⟩ 100 500 [100, 100] envLoser
    (by decide) (by decide) (by decide) (by decide)

/-- C9: evaluation of `convertMentions` at the failing input of the
repository's own broadcast-mention test: with no group resolving and
`alice` resolving to `U222`, the code leaves `@here` unmodified (the
shipped resolver has no broadcast-token handling) and sends the
candidate `here` to the cache resolvers, instead of producing
`<!here> <@U222> please check` without a lookup. -/
theorem broadcast_tokens_unhandled :
    convertMentions groupsAbsent usersAliceOnly "@here @alice please check"
      = ("@here <@U222> please check", ["here", "alice"])
    ∧ "@here <@U222> please check" ≠ "<!here> <@U222> please check" := by
  decide

end McpNotify
